import Mathlib

/-!
Verification of the derivation logic of the Sentiment360 dashboard
(aggregation, formatting, quadrant placement, sorting, validation).

Modelling conventions:
* JavaScript numbers are modelled as rationals (`ℚ`); the database's
  `decimal(3,1)` score columns are modelled by the parsed rational value.
* `toFixed(1)` applied to a value `n / 1000` (with `n : ℕ` a count) is
  modelled as exact decimal rounding, half away from zero, of the rational
  `n / 1000` to one decimal place.
* Stateful JavaScript operations (in-place `Array.prototype.sort`, the
  feedback table) are modelled by explicit state passing: a function
  returns its result together with the state after the call.
* `Array.prototype.sort` with a comparator is required by ECMA-262 to be a
  stable sort consistent with the comparator; it is modelled by
  `List.insertionSort`, which is extensionally that function.
-/

/-- A row of the `regional_sentiment` table as consumed by the
dashboard-stats handler: `sentimentScore` is the value of
`parseFloat(r.sentimentScore)` for the stored `decimal(3,1)` string
(`id` and `updatedAt` metadata are not read by the handler). -/
structure RegionalSentiment where
  region : String
  sentimentScore : ℚ
deriving DecidableEq

/-- The average-sentiment computation of the `/api/dashboard-stats` handler
(`server/routes.ts`):
`regionalData.length > 0 ? regionalData.reduce((sum, r) => sum + parseFloat(r.sentimentScore), 0) / regionalData.length : 0`. -/
def averageSentiment (regions : List RegionalSentiment) : ℚ :=
  if regions.length > 0 then
    (regions.foldl (fun sum r => sum + r.sentimentScore) 0) / (regions.length : ℚ)
  else 0

/-- The `x`/`y` placement of `PrioritizationMatrix.tsx`:
`x = (item.effort / 10) * 100`, `y = 100 - (item.impact / 10) * 100`. -/
def plotPosition (impact effort : ℚ) : ℚ × ℚ :=
  (effort / 10 * 100, 100 - impact / 10 * 100)

/-- Decimal rendering of `(n / 1000).toFixed(1)` from the
`/api/dashboard-stats` handler, for a count `n : ℕ`: the number of tenths
is `(n + 50) / 100` (rounding half away from zero, exact on the rational
`n / 1000`), printed as `⟨units⟩.⟨tenth digit⟩`. -/
def fixed1K (n : ℕ) : String :=
  toString ((n + 50) / 100 / 10) ++ "." ++ toString ((n + 50) / 100 % 10)

/-- The count formatting of the `/api/dashboard-stats` handler:
`totalFeedback > 1000 ? (totalFeedback / 1000).toFixed(1) + "K" : totalFeedback.toString()`. -/
def formatCount (n : ℕ) : String :=
  if n > 1000 then fixed1K n ++ "K" else toString n

-- Auxiliary: the handler's `reduce` accumulates the sum of the scores.
theorem foldl_add_sentimentScore (l : List RegionalSentiment) (init : ℚ) :
    l.foldl (fun sum r => sum + r.sentimentScore) init
      = init + (l.map RegionalSentiment.sentimentScore).sum := by
  induction l generalizing init with
  | nil => simp
  | cons a t ih => simp [List.foldl_cons, ih, add_assoc]

/-- Claim C1: `averageSentiment` returns the arithmetic mean of the parsed
`sentimentScore` values and returns 0 on the empty list; on scores 6 and 8
it returns 7. -/
theorem averageSentiment_mean :
    (∀ regions : List RegionalSentiment,
      averageSentiment regions =
        if regions.length = 0 then 0
        else (regions.map RegionalSentiment.sentimentScore).sum / (regions.length : ℚ))
    ∧ averageSentiment [] = 0
    ∧ averageSentiment [⟨"Northeast", 6⟩, ⟨"West", 8⟩] = 7 := by
  refine ⟨?_, by simp [averageSentiment], by norm_num [averageSentiment]⟩
  intro regions
  by_cases h : regions.length = 0
  · simp [averageSentiment, h]
  · have hpos : regions.length > 0 := Nat.pos_of_ne_zero h
    simp [averageSentiment, hpos, h, foldl_add_sentimentScore]

/-- Claim C7: `plotPosition` maps `(impact, effort)` to
`(effort / 10 * 100, 100 - impact / 10 * 100)`; in particular
`(impact, effort) = (8, 3)` is placed at `(x, y) = (30, 20)`. -/
theorem plotPosition_spec :
    (∀ impact effort : ℚ,
      plotPosition impact effort = (effort / 10 * 100, 100 - impact / 10 * 100))
    ∧ plotPosition 8 3 = (30, 20) := by
  constructor
  · intro impact effort
    rfl
  · norm_num [plotPosition]

/-- Claim C3: `formatCount n` takes the `"K"` branch exactly for `n > 1000`
(strict), renders the plain integer otherwise, and the tenth count
`(n + 50) / 100` used by the `"K"` branch is within half a tenth of the
exact value (`100 * t` within 50 of `n`); the four documented examples. -/
theorem formatCount_spec :
    (∀ n : ℕ, n > 1000 → formatCount n = fixed1K n ++ "K")
    ∧ (∀ n : ℕ, ¬n > 1000 → formatCount n = toString n)
    ∧ (∀ n : ℕ, 100 * ((n + 50) / 100) ≤ n + 50 ∧ n + 50 < 100 * ((n + 50) / 100) + 100)
    ∧ formatCount 999 = "999"
    ∧ formatCount 1000 = "1000"
    ∧ formatCount 1001 = "1.0K"
    ∧ formatCount 43200 = "43.2K" := by
  refine ⟨?_, ?_, ?_, by decide, by decide, by decide, by decide⟩
  · intro n hn
    simp [formatCount, hn]
  · intro n hn
    simp [formatCount, hn]
  · intro n
    omega

/-- Witness for C3: the two guarded branches of `formatCount_spec` applied
at the concrete inputs 2000 and 500. -/
theorem formatCount_spec_witness :
    formatCount 2000 = fixed1K 2000 ++ "K" ∧ formatCount 500 = toString 500 :=
  ⟨formatCount_spec.1 2000 (by norm_num), formatCount_spec.2.1 500 (by norm_num)⟩

/-- A row of the `priority_items` table, fields in schema order
(`shared/schema.ts`). -/
structure PriorityItem where
  id : ℕ
  title : String
  description : String
  impact : ℤ
  effort : ℤ
  category : String
  rank : ℤ
deriving DecidableEq

/-- The ordering induced by the comparator `(a, b) => a.rank - b.rank` of
`PriorityList.tsx`: `a` sorts no later than `b` iff `a.rank ≤ b.rank`. -/
def rankLE (a b : PriorityItem) : Prop := a.rank ≤ b.rank

instance : DecidableRel rankLE :=
  fun a b => inferInstanceAs (Decidable (a.rank ≤ b.rank))

instance : IsTotal PriorityItem rankLE :=
  ⟨fun a b => le_total a.rank b.rank⟩

instance : IsTrans PriorityItem rankLE :=
  ⟨fun _ _ _ h1 h2 => le_trans h1 h2⟩

/-- The value computed by `priorityData?.sort((a, b) => a.rank - b.rank)`
in `PriorityList.tsx`: the stable ascending-by-rank reordering required of
`Array.prototype.sort` by ECMA-262, modelled by insertion sort. -/
def sortByRank (items : List PriorityItem) : List PriorityItem :=
  List.insertionSort rankLE items

/-- The full effect of `priorityData?.sort(...)` in `PriorityList.tsx`:
`Array.prototype.sort` sorts in place and returns the same array, so the
call yields the sorted list as its result AND as the new contents of the
array it was given (second component: state of the input array after the
call). -/
def jsSortByRankInPlace (arr : List PriorityItem) : List PriorityItem × List PriorityItem :=
  (sortByRank arr, sortByRank arr)

/-- The priority list used as failing input for C5: ranks 3, 1, 2 in input
order. -/
def priorityListInput : List PriorityItem :=
  [⟨1, "a", "", 5, 5, "Product", 3⟩,
   ⟨2, "b", "", 5, 5, "Support", 1⟩,
   ⟨3, "c", "", 5, 5, "Content", 2⟩]

/-- Claim C5 (exhibit): sorting in `PriorityList.tsx` does NOT leave the
input collection unchanged — on the list with ranks `[3, 1, 2]` the array
contents after the call differ from the input (the in-place `.sort()`
mutates the React-Query-cached array), contradicting the claimed
non-mutation contract. -/
theorem priorityList_sort_mutates_input :
    (jsSortByRankInPlace priorityListInput).2 ≠ priorityListInput
    ∧ (jsSortByRankInPlace priorityListInput).2 = (jsSortByRankInPlace priorityListInput).1 := by
  constructor
  · decide
  · rfl

-- Auxiliary for stability: inserting `a` with `orderedInsert` preserves,
-- for every rank value `k`, the subsequence of rank-`k` elements, with `a`
-- (if of rank `k`) placed in front: the elements skipped over all have
-- rank strictly below `a.rank`.
theorem filter_rank_orderedInsert (a : PriorityItem) (l : List PriorityItem) (k : ℤ) :
    (List.orderedInsert rankLE a l).filter (fun x => decide (x.rank = k)) =
      if a.rank = k then a :: l.filter (fun x => decide (x.rank = k))
      else l.filter (fun x => decide (x.rank = k)) := by
  induction l with
  | nil =>
    by_cases hk : a.rank = k <;> simp [List.orderedInsert, List.filter, hk]
  | cons b t ih =>
    by_cases hr : rankLE a b
    · by_cases hk : a.rank = k <;> simp [List.orderedInsert, hr, List.filter_cons, hk]
    · by_cases hk : a.rank = k
      · by_cases hbk : b.rank = k
        · exfalso
          exact hr (le_of_eq (hk.trans hbk.symm))
        · simp [List.orderedInsert, hr, List.filter_cons, hk, hbk, ih]
      · by_cases hbk : b.rank = k <;>
          simp [List.orderedInsert, hr, List.filter_cons, hk, hbk, ih]

-- Auxiliary for stability: the stable sort preserves, for every rank
-- value `k`, the original relative order of the rank-`k` elements.
theorem filter_rank_insertionSort (l : List PriorityItem) (k : ℤ) :
    (List.insertionSort rankLE l).filter (fun x => decide (x.rank = k)) =
      l.filter (fun x => decide (x.rank = k)) := by
  induction l with
  | nil => rfl
  | cons a t ih =>
    by_cases hk : a.rank = k <;>
      simp [List.insertionSort, filter_rank_orderedInsert, ih, hk, List.filter_cons]

/-- Claim C8: `sortByRank` produces a permutation of its input, sorted
ascending by `rank`; ties keep the original input order (for every rank
value, the subsequence of elements with that rank is unchanged); and the
operation is idempotent. -/
theorem sortByRank_spec :
    ∀ items : List PriorityItem,
      List.Perm (sortByRank items) items
      ∧ List.Sorted rankLE (sortByRank items)
      ∧ (∀ k : ℤ, (sortByRank items).filter (fun x => decide (x.rank = k))
          = items.filter (fun x => decide (x.rank = k)))
      ∧ sortByRank (sortByRank items) = sortByRank items := by
  intro items
  refine ⟨List.perm_insertionSort rankLE items,
          List.sorted_insertionSort rankLE items,
          fun k => filter_rank_insertionSort items k, ?_⟩
  exact (List.sorted_insertionSort rankLE items).insertionSort_eq

/-- A row of the `feedback` table, fields in schema order
(`shared/schema.ts`); `timestamp` is modelled as an integer instant. -/
structure Feedback where
  id : ℕ
  text : String
  sentiment : String
  source : String
  region : String
  timestamp : ℤ
deriving DecidableEq

/-- The descending-timestamp ordering of
`orderBy(desc(feedback.timestamp))` in `DatabaseStorage.getRecentFeedback`:
`a` sorts no later than `b` iff `a.timestamp ≥ b.timestamp`. -/
def tsGE (a b : Feedback) : Prop := b.timestamp ≤ a.timestamp

instance : DecidableRel tsGE :=
  fun a b => inferInstanceAs (Decidable (b.timestamp ≤ a.timestamp))

instance : IsTotal Feedback tsGE :=
  ⟨fun a b => le_total b.timestamp a.timestamp⟩

instance : IsTrans Feedback tsGE :=
  ⟨fun _ _ _ h1 h2 => le_trans h2 h1⟩

/-- `DatabaseStorage.getRecentFeedback(limit)` (`server/storage.ts`):
`select ... orderBy(desc(feedback.timestamp)).limit(limit)` over the rows
of the feedback table, modelled as sorting the stored rows newest first and
taking the first `limit`. -/
def getRecentFeedback (limit : ℕ) (rows : List Feedback) : List Feedback :=
  (List.insertionSort tsGE rows).take limit

/-- `getRecentFeedback` called with no argument: the declared default is
`limit: number = 10`. -/
def getRecentFeedbackDefault (rows : List Feedback) : List Feedback :=
  getRecentFeedback 10 rows

/-- Claim C9: with no limit argument `getRecentFeedback` returns at most 10
records, and with any limit the result is ordered by timestamp descending
(newest first). -/
theorem getRecentFeedback_spec :
    ∀ rows : List Feedback,
      (getRecentFeedbackDefault rows).length ≤ 10
      ∧ ∀ limit : ℕ, List.Sorted tsGE (getRecentFeedback limit rows) := by
  intro rows
  constructor
  · simp [getRecentFeedbackDefault, getRecentFeedback]
  · intro limit
    exact List.Pairwise.sublist (List.take_sublist limit _)
      (List.sorted_insertionSort tsGE rows)

/-- The `totalFeedback` count of the `/api/dashboard-stats` handler:
`feedbackData.length` where `feedbackData = storage.getRecentFeedback(100)`. -/
def dashboardTotalFeedback (rows : List Feedback) : ℕ :=
  (getRecentFeedback 100 rows).length

/-- The `totalFeedback` field of the dashboard-stats response:
`totalFeedback > 1000 ? (totalFeedback / 1000).toFixed(1) + "K" : totalFeedback.toString()`. -/
def dashboardTotalFeedbackDisplay (rows : List Feedback) : String :=
  formatCount (dashboardTotalFeedback rows)

/-- Claim C10: the dashboard's `totalFeedback` equals
`min (number of stored feedback rows) 100`, hence never exceeds 100, and
its rendering always takes the plain-integer branch: the `"K"`-suffix
branch of the formatter is unreachable for this field. -/
theorem dashboardTotalFeedback_spec :
    ∀ rows : List Feedback,
      dashboardTotalFeedback rows = min rows.length 100
      ∧ dashboardTotalFeedback rows ≤ 100
      ∧ dashboardTotalFeedbackDisplay rows = toString (dashboardTotalFeedback rows) := by
  intro rows
  have hlen : dashboardTotalFeedback rows = min rows.length 100 := by
    have hperm : (List.insertionSort tsGE rows).length = rows.length :=
      (List.perm_insertionSort tsGE rows).length_eq
    simp [dashboardTotalFeedback, getRecentFeedback, hperm, Nat.min_comm]
  have hle : dashboardTotalFeedback rows ≤ 100 := by
    rw [hlen]; exact Nat.min_le_right _ _
  refine ⟨hlen, hle, ?_⟩
  have : ¬ dashboardTotalFeedback rows > 1000 := by omega
  simp [dashboardTotalFeedbackDisplay, formatCount, this]

/-- The whitespace characters removed by `String.prototype.trim` that can
occur in the validator's ASCII inputs (space, tab, line feed, carriage
return, vertical tab, form feed). -/
def isJsSpace (c : Char) : Bool :=
  c == ' ' || c == '\t' || c == '\n' || c == '\r' || c == '\x0b' || c == '\x0c'

/-- `value.trim()` on the character list of the string: whitespace is
stripped from both ends. -/
def jsTrim (cs : List Char) : List Char :=
  ((cs.dropWhile isJsSpace).reverse.dropWhile isJsSpace).reverse

/-- The suffix-letter class `[KMB]` with the `i` flag of the validator's
regular expression in `Manage.tsx`. -/
def isCountSuffix (c : Char) : Bool :=
  c == 'K' || c == 'k' || c == 'M' || c == 'm' || c == 'B' || c == 'b'

/-- Helper for `countPattern`: what may follow the digits, `[KMB]?$`:
nothing, or a single suffix letter. -/
def suffixPart : List Char → Bool
  | [] => true
  | [c] => isCountSuffix c
  | _ => false

/-- Helper for `countPattern`: what may follow the integer digits,
`(\.[0-9]+)?[KMB]?$`: an optional dot with one or more digits, then an
optional single suffix letter, then the end. -/
def afterIntPart : List Char → Bool
  | [] => true
  | c :: rest =>
    if c = '.' then
      if (rest.takeWhile Char.isDigit).isEmpty then false
      else suffixPart (rest.dropWhile Char.isDigit)
    else suffixPart (c :: rest)

/-- The validator's regular expression `/^[0-9]+(\.[0-9]+)?[KMB]?$/i` from
`Manage.tsx` (also the format stated in spec §4.4: one or more digits, an
optional single `.` followed by one or more digits, an optional single
trailing letter from K/k/M/m/B/b, nothing else). The greedy `takeWhile`
split is equivalent to the regex because no continuation of a digit run
(`.`,  a suffix letter, or the end) can start with a digit. -/
def countPattern (cs : List Char) : Bool :=
  if (cs.takeWhile Char.isDigit).isEmpty then false
  else afterIntPart (cs.dropWhile Char.isDigit)

/-- `validateMessageCount` from `Manage.tsx`: trim; accept the empty
string; reject a leading `-`/`+`; reject anything containing `e`/`E`
(scientific notation); otherwise test the regular expression. -/
def validateMessageCount (value : String) : Bool :=
  if jsTrim value.data = [] then true
  else if (jsTrim value.data).head? = some '-' ∨ (jsTrim value.data).head? = some '+' then false
  else if (jsTrim value.data).any (fun c => c == 'e' || c == 'E') then false
  else countPattern (jsTrim value.data)

-- Auxiliary: a list accepted by `suffixPart` holds only suffix letters.
theorem suffixPart_mem (cs : List Char) (h : suffixPart cs = true) :
    ∀ c ∈ cs, isCountSuffix c = true := by
  cases cs with
  | nil => intro c hc; cases hc
  | cons a t =>
    cases t with
    | nil =>
      intro c hc
      rw [List.mem_singleton] at hc
      subst hc
      simpa [suffixPart] using h
    | cons b t2 => simp [suffixPart] at h

-- Auxiliary: a list accepted by `afterIntPart` holds only digits, dots and
-- suffix letters.
theorem afterIntPart_mem (cs : List Char) (h : afterIntPart cs = true) :
    ∀ c ∈ cs, Char.isDigit c = true ∨ c = '.' ∨ isCountSuffix c = true := by
  cases cs with
  | nil => intro c hc; cases hc
  | cons a rest =>
    intro c hc
    by_cases hdot : a = '.'
    · rw [afterIntPart, if_pos hdot] at h
      rcases List.mem_cons.mp hc with hca | hcr
      · exact Or.inr (Or.inl (hca.trans hdot))
      · rw [← List.takeWhile_append_dropWhile (p := Char.isDigit) (l := rest)] at hcr
        rcases List.mem_append.mp hcr with h1 | h2
        · exact Or.inl (List.mem_takeWhile_imp h1)
        · by_cases hemp : (rest.takeWhile Char.isDigit).isEmpty
          · rw [if_pos hemp] at h; cases h
          · rw [if_neg hemp] at h
            exact Or.inr (Or.inr (suffixPart_mem _ h c h2))
    · rw [afterIntPart, if_neg hdot] at h
      exact Or.inr (Or.inr (suffixPart_mem _ h c hc))

-- Auxiliary: a list accepted by `countPattern` starts with a digit.
theorem countPattern_head_digit (cs : List Char) (h : countPattern cs = true) :
    ∃ d t, cs = d :: t ∧ Char.isDigit d = true := by
  cases cs with
  | nil => simp [countPattern] at h
  | cons a t =>
    refine ⟨a, t, rfl, ?_⟩
    by_contra hnd
    rw [Bool.not_eq_true] at hnd
    simp [countPattern, List.takeWhile_cons, hnd] at h

-- Auxiliary: a list accepted by `countPattern` holds only digits, dots and
-- suffix letters.
theorem countPattern_mem (cs : List Char) (h : countPattern cs = true) :
    ∀ c ∈ cs, Char.isDigit c = true ∨ c = '.' ∨ isCountSuffix c = true := by
  intro c hc
  have hni : ¬ (cs.takeWhile Char.isDigit).isEmpty = true := by
    intro hemp
    rw [countPattern, if_pos hemp] at h
    cases h
  have ha : afterIntPart (cs.dropWhile Char.isDigit) = true := by
    rwa [countPattern, if_neg hni] at h
  rw [← List.takeWhile_append_dropWhile (p := Char.isDigit) (l := cs)] at hc
  rcases List.mem_append.mp hc with h1 | h2
  · exact Or.inl (List.mem_takeWhile_imp h1)
  · exact afterIntPart_mem _ ha c h2

/-- Counterexample for C4 as stated: the validator accepts the empty
string (`Manage.tsx` lines 100-104 return `true` for an empty-after-trim
value), although the empty string does not consist of one or more digits
with optional fraction and suffix. -/
theorem validateMessageCount_counterexample :
    validateMessageCount "" = true ∧ countPattern (jsTrim "".data) = false := by
  constructor
  · decide
  · decide

/-- Claim C4 (amended): the validator accepts a string exactly when, after
trimming, it either matches the pattern (one or more digits, an optional
single `.` followed by one or more digits, an optional single trailing
letter from K/k/M/m/B/b, nothing else) or is empty (emptiness is deferred
to the form's `required` attribute); together with the documented accepted
and rejected examples. -/
theorem validateMessageCount_amended_spec :
    (∀ s : String, validateMessageCount s = true ↔
        (jsTrim s.data = [] ∨ countPattern (jsTrim s.data) = true))
    ∧ validateMessageCount "100" = true
    ∧ validateMessageCount "2.5K" = true
    ∧ validateMessageCount "1.5M" = true
    ∧ validateMessageCount "3B" = true
    ∧ validateMessageCount "-100" = false
    ∧ validateMessageCount "1e3" = false
    ∧ validateMessageCount "2.5.3K" = false
    ∧ validateMessageCount "10KM" = false
    ∧ validateMessageCount "abc" = false := by
  refine ⟨?_, by decide, by decide, by decide, by decide, by decide,
          by decide, by decide, by decide, by decide⟩
  intro s
  by_cases h0 : jsTrim s.data = []
  · simp [validateMessageCount, h0]
  · constructor
    · intro hv
      rw [validateMessageCount, if_neg h0] at hv
      by_cases hsign : (jsTrim s.data).head? = some '-' ∨ (jsTrim s.data).head? = some '+'
      · rw [if_pos hsign] at hv
        exact absurd hv Bool.false_ne_true
      · rw [if_neg hsign] at hv
        by_cases he : (jsTrim s.data).any (fun c => c == 'e' || c == 'E') = true
        · rw [if_pos he] at hv
          exact absurd hv Bool.false_ne_true
        · rw [if_neg he] at hv
          exact Or.inr hv
    · rintro (he | hp)
      · exact absurd he h0
      · obtain ⟨d, t, ht, hd⟩ := countPattern_head_digit _ hp
        have hsign : ¬ ((jsTrim s.data).head? = some '-' ∨ (jsTrim s.data).head? = some '+') := by
          rw [ht]
          rintro (hm | hpl)
          · rw [List.head?_cons, Option.some_inj] at hm
            subst hm
            simp [Char.isDigit] at hd
          · rw [List.head?_cons, Option.some_inj] at hpl
            subst hpl
            simp [Char.isDigit] at hd
        have he : (jsTrim s.data).any (fun c => c == 'e' || c == 'E') = false := by
          rw [List.any_eq_false]
          intro c hc
          rcases countPattern_mem _ hp c hc with hdig | hdot | hsuf
          · intro hce
            rcases Bool.or_eq_true_iff.mp hce with h1 | h1
            · rw [beq_iff_eq] at h1; subst h1; simp [Char.isDigit] at hdig
            · rw [beq_iff_eq] at h1; subst h1; simp [Char.isDigit] at hdig
          · subst hdot; decide
          · intro hce
            rcases Bool.or_eq_true_iff.mp hce with h1 | h1
            · rw [beq_iff_eq] at h1; subst h1; simp [isCountSuffix] at hsuf
            · rw [beq_iff_eq] at h1; subst h1; simp [isCountSuffix] at hsuf
        rw [validateMessageCount, if_neg h0, if_neg hsign, if_neg (by rw [he]; exact Bool.false_ne_true)]
        exact hp

/-- The quadrant labels of `PrioritizationMatrix.tsx` in source (child)
order inside `grid grid-cols-2 grid-rows-2`. CSS grid auto-placement puts
the first child in the TOP-left cell, then top-right, bottom-left,
bottom-right; the children are labelled, in order, "Fill Ins",
"Quick Wins", "Hard Slogs", "Major Projects". -/
def gridCellLabel (topHalf leftHalf : Bool) : String :=
  match topHalf, leftHalf with
  | true, true => "Fill Ins"
  | true, false => "Quick Wins"
  | false, true => "Hard Slogs"
  | false, false => "Major Projects"

/-- The quadrant label displayed under an item plotted by
`PrioritizationMatrix.tsx`: the item's circle is centred at
`left = x%`, `top = y%` (see `plotPosition`), so it lies in the top half
of the square iff `y < 50` (iff `impact > 5`) and in the left half iff
`x ≤ 50` (iff `effort ≤ 5`); the label comes from the grid cell it lies
in. (At `impact = 5` or `effort = 5` the centre sits exactly on a grid
border; this model assigns the border to the bottom/left cell.) -/
def renderedQuadrant (impact effort : ℚ) : String :=
  if (plotPosition impact effort).2 < 50 then
    if (plotPosition impact effort).1 ≤ 50 then gridCellLabel true true
    else gridCellLabel true false
  else
    if (plotPosition impact effort).1 ≤ 50 then gridCellLabel false true
    else gridCellLabel false false

/-- Claim C2 (exhibit of the code bug): for the item with `impact = 9`,
`effort = 3` — unambiguously interior to a cell — the rendered quadrant is
the one labelled "Fill Ins", not "Quick Wins" as the claim and the
component's own header comment ("Quick Wins (high impact, low effort)")
state; the other three interior sample points of the claim are likewise
each rendered under the label of the vertically mirrored quadrant. -/
theorem renderedQuadrant_bug :
    renderedQuadrant 9 3 = "Fill Ins"
    ∧ renderedQuadrant 9 3 ≠ "Quick Wins"
    ∧ renderedQuadrant 7 8 = "Quick Wins"
    ∧ renderedQuadrant 4 2 = "Hard Slogs"
    ∧ renderedQuadrant 3 9 = "Major Projects" := by
  refine ⟨by norm_num [renderedQuadrant, plotPosition, gridCellLabel], ?_,
    by norm_num [renderedQuadrant, plotPosition, gridCellLabel],
    by norm_num [renderedQuadrant, plotPosition, gridCellLabel],
    by norm_num [renderedQuadrant, plotPosition, gridCellLabel]⟩
  norm_num [renderedQuadrant, plotPosition, gridCellLabel]
  decide

/-- A JSON value as far as the insert schemas observe it. -/
inductive JsonValue where
  | str : String → JsonValue
  | num : ℚ → JsonValue
  | boolVal : Bool → JsonValue
  | null : JsonValue
deriving DecidableEq

/-- The request body of `POST /api/feedback` (fields of
`insertFeedbackSchema`: the `feedback` columns minus generated
`id`/`timestamp`). -/
structure FeedbackBody where
  text : JsonValue
  sentiment : JsonValue
  source : JsonValue
  region : JsonValue
deriving DecidableEq

/-- A validated insert payload for the `feedback` table. -/
structure InsertFeedback where
  text : String
  sentiment : String
  source : String
  region : String
deriving DecidableEq

/-- `insertFeedbackSchema.parse` (`shared/schema.ts`):
`createInsertSchema(feedback).omit({id, timestamp})`. All four remaining
columns are plain `text(...).notNull()` columns with no enum argument, so
drizzle-zod maps each to `z.string()`: parsing succeeds exactly when every
field is a string, with NO restriction on the `sentiment` value. -/
def insertFeedbackSchemaParse (b : FeedbackBody) : Option InsertFeedback :=
  match b.text, b.sentiment, b.source, b.region with
  | .str t, .str sen, .str src, .str reg => some ⟨t, sen, src, reg⟩
  | _, _, _, _ => none

/-- `DatabaseStorage.createFeedback` (`server/storage.ts`): insert the
validated payload as a new row (with generated id and timestamp) and
return it; the table state after the call carries the new row. -/
def createFeedback (f : InsertFeedback) (db : List Feedback) (newId : ℕ) (now : ℤ) :
    Feedback × List Feedback :=
  (⟨newId, f.text, f.sentiment, f.source, f.region, now⟩,
   db ++ [⟨newId, f.text, f.sentiment, f.source, f.region, now⟩])

/-- The `POST /api/feedback` handler (`server/routes.ts`): parse the body
with `insertFeedbackSchema`; on success store the row and answer 201; on a
parse error answer 400 with the table unchanged. Result: (HTTP status,
feedback-table state after the request). -/
def postFeedbackRoute (b : FeedbackBody) (db : List Feedback) (newId : ℕ) (now : ℤ) :
    ℕ × List Feedback :=
  match insertFeedbackSchemaParse b with
  | some f => (201, (createFeedback f db newId now).2)
  | none => (400, db)

/-- Modelled from the spec (§3 data model: `sentiment ∈ {positive,
negative, neutral}`; also the schema comment on the `sentiment` column):
the set of sentiment values the claim says are the only storable ones. -/
def specAllowedSentiment (s : String) : Bool :=
  s == "positive" || s == "negative" || s == "neutral"

/-- Claim C6 (exhibit of the code bug): a create-feedback request with
`sentiment = "maybe"` — not an allowed enum value — is NOT rejected: the
route answers 201, the row reaches storage, and a subsequent
list-recent-feedback call returns it. -/
theorem postFeedback_accepts_invalid_sentiment :
    specAllowedSentiment "maybe" = false
    ∧ (postFeedbackRoute ⟨.str "Great app", .str "maybe", .str "Twitter", .str "West"⟩ [] 1 0).1
        = 201
    ∧ (postFeedbackRoute ⟨.str "Great app", .str "maybe", .str "Twitter", .str "West"⟩ [] 1 0).2
        = [⟨1, "Great app", "maybe", "Twitter", "West", 0⟩]
    ∧ getRecentFeedback 10
        (postFeedbackRoute ⟨.str "Great app", .str "maybe", .str "Twitter", .str "West"⟩ [] 1 0).2
        = [⟨1, "Great app", "maybe", "Twitter", "West", 0⟩] := by
  refine ⟨by decide, by decide, by decide, by decide⟩
